import Mathlib

/-!
Shallow embedding of src/main.py (saleohota-bot): a price-watch bot for the
WB and OZON marketplaces.  Strings are modelled as lists of characters over
the ASCII fragment relevant to the inputs (Python's regex classes \d and \w
and str.strip also cover further Unicode characters, which are outside the
modelled input alphabet).  Machine integers are Nat/Int; Python's floor
division // on int is Int.fdiv.
-/

deriving instance DecidableEq for Except

namespace SaleOhota

/-- The ten ASCII digit characters (the class \d / str.isdigit on ASCII). -/
def digitChars : List Char := ['0', '1', '2', '3', '4', '5', '6', '7', '8', '9']

/-- Membership in the ASCII digit class. -/
def isDig (c : Char) : Bool := decide (c ∈ digitChars)

/-- Python regex word characters (the class \w on ASCII): letters, digits, underscore. -/
def wordChar (c : Char) : Bool := c.isAlpha || isDig c || c = '_'

/-- ASCII whitespace characters stripped by str.strip(). -/
def isWs (c : Char) : Bool := c = ' ' || c = '\t' || c = '\n' || c = '\r' || c = '\x0b' || c = '\x0c'

/-- str.strip(): drop leading and trailing whitespace. -/
def stripStr (l : List Char) : List Char :=
  ((l.dropWhile isWs).reverse.dropWhile isWs).reverse

/-- str.lower() on the ASCII fragment. -/
def lowerStr (l : List Char) : List Char := l.map Char.toLower

/-- int() on a digit string (decimal value). -/
def digitsToNat (l : List Char) : Nat :=
  l.foldl (fun a c => 10 * a + (c.toNat - 48)) 0

/-- str() of a nonnegative integer (decimal representation). -/
def natRepr (n : Nat) : List Char := Nat.toDigits 10 n

/-- The longest digit run at the head of the list (greedy \d+). -/
def takeDigits (l : List Char) : List Char := l.takeWhile isDig

/-- What remains after the digit run at the head of the list. -/
def dropDigits (l : List Char) : List Char := l.dropWhile isDig

/-- Word boundary test against the character preceding the current position
(none at the start of the string): \b holds before a word character iff the
previous character is absent or not a word character. -/
def boundaryBefore : Option Char → Bool
  | none => true
  | some c => !wordChar c

/-- Word boundary test after a digit run: \b holds iff the following
character is absent or not a word character. -/
def boundaryAfterL : List Char → Bool
  | [] => true
  | c :: _ => !wordChar c

/-- The literal of the first regex in extract_wb_nm. -/
def litWB : List Char := "wildberries.ru/catalog/".data

/-- Leftmost match of the regex wildberries\.ru/catalog/(\d+): scan for the
literal followed by at least one digit and return the following maximal
digit run as an integer (src/main.py line 46). -/
def findWbCatalog : List Char → Option Nat
  | [] => none
  | c :: rest =>
    if litWB.isPrefixOf (c :: rest) && isDig (((c :: rest).drop litWB.length).headD 'x')
    then some (digitsToNat (takeDigits ((c :: rest).drop litWB.length)))
    else findWbCatalog rest

/-- Leftmost match of the regex \b(\d{6,12})\b (src/main.py line 51): a
maximal digit run of length 6 to 12 whose neighbours on both sides are
word boundaries.  The scan advances one position at a time, exactly as the
regex engine does; positions inside a run fail the left boundary test. -/
def findRun (prev : Option Char) (l : List Char) : Option (List Char) :=
  match l with
  | [] => none
  | c :: rest =>
    let run := (c :: rest).takeWhile isDig
    if isDig c && boundaryBefore prev && decide (6 ≤ run.length) &&
       decide (run.length ≤ 12) && boundaryAfterL ((c :: rest).dropWhile isDig)
    then some run
    else findRun (some c) rest

/-- extract_wb_nm (src/main.py lines 35-55): first the WB catalog link
pattern, else the first 6-12 digit run bounded by word boundaries; the
captured digits are converted with int(). -/
def extract_wb_nm (text : List Char) : Option Nat :=
  if text.isEmpty then none
  else
    match findWbCatalog text with
    | some n => some n
    | none => (findRun none text).map digitsToNat

/-! ## WB fetcher (mirror hosts, fallback) -/

/-- Zero-padded two-digit rendering, as in the format f"basket-{i:02d}". -/
def pad2 (i : Nat) : List Char := if i < 10 then '0' :: natRepr i else natRepr i

/-- One WB mirror host name, f"basket-{i:02d}.wb.ru" (src/main.py line 32). -/
def basketHost (i : Nat) : List Char := "basket-".data ++ pad2 i ++ ".wb.ru".data

/-- BASKETS (src/main.py line 32): the mirror hosts for i in range(1, 21). -/
def BASKETS : List (List Char) := (List.range' 1 20).map basketHost

/-- The sharded path for a product id (src/main.py lines 59-61): bucket keys
are the integer divisions nm // 1_000_000 and nm // 1_000. -/
def wbPath (nm : Nat) : List Char :=
  "/vol".data ++ natRepr (nm / 1000000) ++ "/part".data ++ natRepr (nm / 1000) ++
    "/".data ++ natRepr nm ++ "/info/ru/card.json".data

/-- wb_card_urls (src/main.py lines 58-62): one URL per mirror host, in the
order of BASKETS. -/
def wb_card_urls (nm : Nat) : List (List Char) :=
  BASKETS.map (fun host => "https://".data ++ host ++ wbPath nm)

/-- The URL for mirror host number i (basket-i), for stating order facts. -/
def wbUrlN (i nm : Nat) : List Char := "https://".data ++ basketHost i ++ wbPath nm

/-- A WB card payload (the JSON dict returned by a mirror host).  A price
field is some n exactly when the field is present and isinstance(_, int)
holds; absent or non-integer fields are none. -/
structure WbCard where
  imt_name : Option (List Char)
  goods_name : Option (List Char)
  salePriceU : Option Int
  priceU : Option Int
deriving DecidableEq

/-- The outcome of one HTTP GET: a response with a status code and a JSON
body, or a network error (an exception) carrying its message. -/
inductive HttpRes where
  | response (code : Nat) (body : WbCard)
  | netErr (msg : List Char)
deriving DecidableEq

/-- Whether an attempt fails to produce a usable payload: any non-200 status
or any network error. -/
def httpFails : HttpRes → Bool
  | .response code _ => code ≠ 200
  | .netErr _ => true

/-- The last_err value the loop in fetch_wb_card records for a failing
attempt at URL u: f"{r.status} {url}" for a non-200 response, str(e) for an
exception. -/
def errMsgOf (r : HttpRes) (u : List Char) : List Char :=
  match r with
  | .response code _ => natRepr code ++ ' ' :: u
  | .netErr m => m

/-- Whether the attempt at index j of the URL list fails (true when the
index is out of range, vacuously). -/
def httpFailsAtL (resp : List Char → HttpRes) (l : List (List Char)) (j : Nat) : Bool :=
  match l[j]? with
  | some v => httpFails (resp v)
  | none => true

/-- The loop body of fetch_wb_card (src/main.py lines 66-76): try each URL
in order, return the body of the first 200 response, otherwise record the
most recent error and move on; when the list is exhausted, raise carrying
the last error. -/
def fetchLoop (resp : List Char → HttpRes) : List (List Char) → Option (List Char) →
    Except (Option (List Char)) WbCard
  | [], lastErr => .error lastErr
  | u :: rest, _lastErr =>
    match resp u with
    | .response code body =>
      if code = 200 then .ok body
      else fetchLoop resp rest (some (natRepr code ++ ' ' :: u))
    | .netErr m => fetchLoop resp rest (some m)

/-- fetch_wb_card (src/main.py lines 65-76), parameterized by the network
response of each URL. -/
def fetch_wb_card (resp : List Char → HttpRes) (nm : Nat) : Except (Option (List Char)) WbCard :=
  fetchLoop resp (wb_card_urls nm) none

/-- Python's x or y on optional strings: y when x is None or empty. -/
def pyOrS (a : Option (List Char)) (b : List Char) : List Char :=
  match a with
  | none => b
  | some s => if s.isEmpty then b else s

/-- wb_extract_title_price (src/main.py lines 79-93): the title falls back
from imt_name to goods_name to a placeholder; the price is salePriceU // 100
when salePriceU is an int, else priceU // 100 when priceU is an int, else
None.  Python's // on int is floor division, Int.fdiv. -/
def wb_extract_title_price (c : WbCard) : List Char × Option Int :=
  (pyOrS c.imt_name (pyOrS c.goods_name ("Товар WB".data)),
    match c.salePriceU with
    | some s => some (Int.fdiv s 100)
    | none =>
      match c.priceU with
      | some q => some (Int.fdiv q 100)
      | none => none)

/-! ## OZON parsing -/

/-- The literal "ozon". -/
def litOzon : List Char := "ozon".data

/-- The tail test of the regex \bozon\s+(\d{6,12})\b at a position just
after the literal "ozon": at least one whitespace character, then a maximal
digit run of length 6 to 12 followed by a word boundary. -/
def ozonCmdHere (l : List Char) : Option (List Char) :=
  if !(l.takeWhile isWs).isEmpty && decide (6 ≤ (takeDigits (l.dropWhile isWs)).length) &&
     decide ((takeDigits (l.dropWhile isWs)).length ≤ 12) &&
     boundaryAfterL (dropDigits (l.dropWhile isWs))
  then some (takeDigits (l.dropWhile isWs))
  else none

/-- Leftmost match of \bozon\s+(\d{6,12})\b (src/main.py line 110). -/
def findOzonCmd (prev : Option Char) : List Char → Option (List Char)
  | [] => none
  | c :: rest =>
    if boundaryBefore prev && litOzon.isPrefixOf (c :: rest) then
      match ozonCmdHere ((c :: rest).drop litOzon.length) with
      | some d => some d
      | none => findOzonCmd (some c) rest
    else findOzonCmd (some c) rest

/-- The tail test of the regex -([0-9]{6,12})/?(?:\?|$) after the digit
group: an optional '/', then '?' or the end of the string. -/
def dashTailOk : List Char → Bool
  | [] => true
  | '?' :: _ => true
  | '/' :: rest =>
    match rest with
    | [] => true
    | '?' :: _ => true
    | _ => false
  | _ => false

/-- Leftmost match of -([0-9]{6,12})/?(?:\?|$) (src/main.py line 115). -/
def findDashId : List Char → Option (List Char)
  | [] => none
  | c :: rest =>
    if c = '-' then
      if decide (6 ≤ (takeDigits rest).length) && decide ((takeDigits rest).length ≤ 12) &&
         dashTailOk (dropDigits rest)
      then some (takeDigits rest)
      else findDashId rest
    else findDashId rest

/-- Substring test for the literal "ozon" (Python's "ozon" in t). -/
def containsOzon : List Char → Bool
  | [] => false
  | c :: rest => litOzon.isPrefixOf (c :: rest) || containsOzon rest

/-- The two regex searches of extract_ozon_id over the lowercased stripped
text t: first the command form, else the link form guarded by the "ozon"
substring test. -/
def ozonScan (t : List Char) : Option (List Char) :=
  match findOzonCmd none t with
  | some d => some d
  | none =>
    match findDashId t with
    | some d => if containsOzon t then some d else none
    | none => none

/-- extract_ozon_id (src/main.py lines 99-119): lowercase the stripped
text and scan.  Returns the captured digit string, or none. -/
def extract_ozon_id (text : List Char) : Option (List Char) :=
  if text.isEmpty then none
  else ozonScan (lowerStr (stripStr text))

/-! ## Target-price message -/

/-- The tail of is_price_message after the cleanup of the text: t must be
a digit string (t.isdigit(), false on the empty string) and its int()
value must be positive. -/
def priceOfDigits (t : List Char) : Option Nat :=
  if t.isEmpty || !(t.all isDig) then none
  else if digitsToNat t = 0 then none
  else some (digitsToNat t)

/-- is_price_message (src/main.py lines 237-249): strip, remove all ' '
and then all '.', require a digit string, parse with int(), reject
nonpositive values. -/
def is_price_message (text : List Char) : Option Nat :=
  if text.isEmpty then none
  else priceOfDigits
    (((stripStr text).filter (fun c => !(c == ' '))).filter (fun c => !(c == '.')))

/-! ## Message routing and conversation state -/

/-- The marketplace tag stored in a subscription row. -/
inductive Mp where
  | wb
  | ozon
deriving DecidableEq

/-- A parsed product reference, as resolved by the non-pending branches of
on_message. -/
inductive ParsedRef where
  | wbRef (nm : Nat)
  | ozonRef (oid : List Char)
deriving DecidableEq

/-- The OZON fallthrough of on_message (src/main.py lines 493-508): the
branch is taken when extract_ozon_id returns a truthy (nonempty) string. -/
def ozon_parse (text : List Char) : Option ParsedRef :=
  match extract_ozon_id text with
  | some oid => if oid.isEmpty then none else some (.ozonRef oid)
  | none => none

/-- The branch selection of on_message for a user with no pending entry
(src/main.py lines 456-517): the WB branch is taken when extract_wb_nm
returns a truthy (nonzero) integer; else the OZON branch; else the
fallback, a parse failure. -/
def parse_ref (text : List Char) : Option ParsedRef :=
  match extract_wb_nm text with
  | some nm => if nm ≠ 0 then some (.wbRef nm) else ozon_parse text
  | none => ozon_parse text

/-- The per-user PENDING entry (src/main.py line 234). -/
structure PendingEntry where
  marketplace : Mp
  product_id : List Char
  title : List Char
  url : List Char
  last_price : Option Int
deriving DecidableEq

/-- The fields of the subscription row written by db_add_subscription when
a pending conversation completes (src/main.py lines 436-445). -/
structure NewSub where
  marketplace : Mp
  product_id : List Char
  title : List Char
  url : List Char
  target_price : Nat
  last_price : Option Int
deriving DecidableEq

/-- The distinct replies on_message can produce (abstracting the exact
message text). -/
inductive Reply where
  | silent
  | askNumber
  | subscribed (price : Nat)
  | wbFound (nm : Nat)
  | wbError
  | ozonSaved (oid : List Char)
  | fallback
deriving DecidableEq

/-- The canonical WB product URL (src/main.py line 463). -/
def wbDetailUrl (nm : Nat) : List Char :=
  "https://www.wildberries.ru/catalog/".data ++ natRepr nm ++ "/detail.aspx".data

/-- The placeholder title for a saved OZON reference (src/main.py line 498). -/
def ozonTitle (oid : List Char) : List Char := "Ozon товар ".data ++ oid

/-- The url field for a saved OZON reference (src/main.py line 499): the
message text when it mentions ozon, else the command form. -/
def ozonUrlOf (text oid : List Char) : List Char :=
  if containsOzon (lowerStr text) then text else "ozon ".data ++ oid

/-- The body of on_message on the already-stripped text. -/
def handle_text (resp : List Char → HttpRes) (pend : Option PendingEntry) (text : List Char) :
    Reply × Option PendingEntry × Option NewSub :=
  if text.isEmpty then (.silent, pend, none)
  else
    match pend with
    | some e =>
      match is_price_message text with
      | none => (.askNumber, some e, none)
      | some p => (.subscribed p, none,
          some ⟨e.marketplace, e.product_id, e.title, e.url, p, e.last_price⟩)
    | none =>
      match parse_ref text with
      | some (.wbRef nm) =>
        match fetch_wb_card resp nm with
        | .ok card =>
          (.wbFound nm,
           some ⟨.wb, natRepr nm, (wb_extract_title_price card).1, wbDetailUrl nm,
                 (wb_extract_title_price card).2⟩,
           none)
        | .error _ => (.wbError, none, none)
      | some (.ozonRef oid) =>
        (.ozonSaved oid, some ⟨.ozon, oid, ozonTitle oid, ozonUrlOf text oid, none⟩, none)
      | none => (.fallback, none, none)

/-- on_message (src/main.py lines 420-517), for one user, as a function of
the user's pending entry and the message text; the network is the resp
parameter and the store writes are returned as data.  The handler first
strips the text (line 422: text = (message.text or "").strip()).  Returns
the reply, the new pending entry for the user, and the subscription row
inserted by db_add_subscription, if any. -/
def on_message (resp : List Char → HttpRes) (pend : Option PendingEntry) (text0 : List Char) :
    Reply × Option PendingEntry × Option NewSub :=
  handle_text resp pend (stripStr text0)

/-! ## The watch cycle -/

/-- A row of the subscriptions table (src/main.py lines 125-138). -/
structure Subscription where
  id : Nat
  user_id : Nat
  chat_id : Nat
  marketplace : Mp
  product_id : List Char
  title : List Char
  url : List Char
  target_price : Int
  last_price : Option Int
  active : Bool
deriving DecidableEq

/-- A notification actually delivered by bot.send_message during a cycle. -/
structure Notif where
  chat_id : Nat
  sub_id : Nat
  price : Int
deriving DecidableEq

/-- fetch_current_price (src/main.py lines 255-271): for WB, run the
mirror-host fetch on int(product_id) and extract title and price; for
OZON, fetching is disabled and the triple of Nones is returned. -/
def fetch_current_price (resp : List Char → HttpRes) (marketplace : Mp) (product_id : List Char) :
    Except (Option (List Char)) (Option Int × Option (List Char) × Option (List Char)) :=
  match marketplace with
  | .wb =>
    match fetch_wb_card resp (digitsToNat product_id) with
    | .error e => .error e
    | .ok card =>
      .ok ((wb_extract_title_price card).2, some (wb_extract_title_price card).1,
           some (wbDetailUrl (digitsToNat product_id)))
  | .ozon => .ok (none, none, none)

/-- The body of the per-subscription loop of check_prices (src/main.py
lines 279-323), for one row.  The whole body runs inside one try/except:
a fetch error leaves the row untouched; OZON rows are skipped before any
store write; otherwise last_price is updated, and when the fetched price
is at or below the target, bot.send_message is attempted (its success
given by sendOk) and, only if it did not raise, db_deactivate runs.
Returns the updated row and the delivered notification, if any. -/
def processSub (resp : List Char → HttpRes) (sendOk : Subscription → Bool) (s : Subscription) :
    Subscription × Option Notif :=
  match fetch_current_price resp s.marketplace s.product_id with
  | .error _ => (s, none)
  | .ok (price, _newTitle, _newUrl) =>
    match s.marketplace with
    | .ozon => (s, none)
    | .wb =>
      match price with
      | none => ({ s with last_price := none }, none)
      | some p =>
        if p ≤ s.target_price then
          if sendOk s then
            ({ s with last_price := some p, active := false }, some ⟨s.chat_id, s.id, p⟩)
          else ({ s with last_price := some p }, none)
        else ({ s with last_price := some p }, none)

/-- check_prices (src/main.py lines 274-323): the subscriptions table as a
list of rows with distinct ids; db_get_active loads exactly the rows with
active = 1, each is processed independently, and the per-id writebacks
amount to an in-place update of the processed rows.  Returns the updated
table and the notifications delivered during the cycle. -/
def check_prices (resp : List Char → HttpRes) (sendOk : Subscription → Bool)
    (subs : List Subscription) : List Subscription × List Notif :=
  (subs.map (fun s => if s.active then (processSub resp sendOk s).1 else s),
   subs.filterMap (fun s => if s.active then (processSub resp sendOk s).2 else none))

/-! ## Lemmas about the mirror-host loop -/

/-- If the attempts at the first k URLs all fail and the attempt at index k
returns HTTP 200, the loop returns that payload, whatever error was
recorded so far. -/
lemma fetchLoop_first_ok (resp : List Char → HttpRes) :
    ∀ (l : List (List Char)) (le : Option (List Char)) (k : Nat) (u : List Char) (card : WbCard),
      (∀ j, j < k → httpFailsAtL resp l j = true) →
      l[k]? = some u → resp u = .response 200 card →
      fetchLoop resp l le = .ok card := by
  intro l
  induction l with
  | nil => intro le k u card _ hk _; simp at hk
  | cons a rest ih =>
    intro le k u card hfail hk hresp
    cases k with
    | zero =>
      simp at hk
      subst hk
      simp [fetchLoop, hresp]
    | succ k =>
      have h0 : httpFailsAtL resp (a :: rest) 0 = true := hfail 0 (Nat.succ_pos k)
      have hk' : rest[k]? = some u := by simpa using hk
      have hfail' : ∀ j, j < k → httpFailsAtL resp rest j = true := by
        intro j hj
        have := hfail (j + 1) (Nat.succ_lt_succ hj)
        simpa [httpFailsAtL] using this
      cases hra : resp a with
      | response code body =>
        have hcode : code ≠ 200 := by
          simp [httpFailsAtL, hra, httpFails] at h0
          exact h0
        simp only [fetchLoop, hra, if_neg hcode]
        exact ih _ k u card hfail' hk' hresp
      | netErr m =>
        simp only [fetchLoop, hra]
        exact ih _ k u card hfail' hk' hresp

/-- If every attempt fails, the loop raises carrying the error of the last
URL, which is the most recently recorded one. -/
lemma fetchLoop_allFail (resp : List Char → HttpRes) :
    ∀ (l : List (List Char)) (le : Option (List Char)) (u : List Char),
      (∀ v ∈ l, httpFails (resp v) = true) → l.getLast? = some u →
      fetchLoop resp l le = .error (some (errMsgOf (resp u) u)) := by
  intro l
  induction l with
  | nil => intro le u _ h; simp at h
  | cons a rest ih =>
    intro le u hfail hlast
    have hfa : httpFails (resp a) = true := hfail a (List.mem_cons_self a rest)
    cases rest with
    | nil =>
      have hu : a = u := by simpa [List.getLast?] using hlast
      subst hu
      cases hra : resp a with
      | response code body =>
        have hc : code ≠ 200 := by
          simp [httpFails, hra] at hfa
          exact hfa
        simp [fetchLoop, hra, hc, errMsgOf]
      | netErr m => simp [fetchLoop, hra, errMsgOf]
    | cons b t =>
      have hlast2 : (b :: t).getLast? = some u := by
        simpa [List.getLast?_cons_cons] using hlast
      have hfail2 : ∀ v ∈ b :: t, httpFails (resp v) = true := fun v hv =>
        hfail v (List.mem_cons_of_mem a hv)
      cases hra : resp a with
      | response code body =>
        have hc : code ≠ 200 := by
          simp [httpFails, hra] at hfa
          exact hfa
        simp only [fetchLoop, hra, if_neg hc]
        exact ih (some (natRepr code ++ ' ' :: a)) u hfail2 hlast2
      | netErr m =>
        simp only [fetchLoop, hra]
        exact ih (some m) u hfail2 hlast2

/-- Claim C4 (confirmed): for every WB product id, the fetcher attempts the
mirror hosts in fixed ascending numeric order (basket-01 first at index 0)
and returns the payload of the first host answering HTTP 200; in particular
if the first hosts fail and a later host returns 200 the fetch succeeds
with that host's payload, and if all hosts fail the fetch fails carrying
the most recent error, the one recorded for the last host. -/
theorem c4_mirror_hosts_in_order_first_200_wins (resp : List Char → HttpRes) (nm : Nat) :
    (∀ i, i < 20 → (wb_card_urls nm)[i]? = some (wbUrlN (i + 1) nm))
    ∧ (∀ k u card, (∀ j, j < k → httpFailsAtL resp (wb_card_urls nm) j = true) →
        (wb_card_urls nm)[k]? = some u → resp u = .response 200 card →
        fetch_wb_card resp nm = .ok card)
    ∧ (∀ u, (∀ v ∈ wb_card_urls nm, httpFails (resp v) = true) →
        (wb_card_urls nm).getLast? = some u →
        fetch_wb_card resp nm = .error (some (errMsgOf (resp u) u))) := by
  refine ⟨?_, ?_, ?_⟩
  · intro i hi
    interval_cases i <;> rfl
  · intro k u card h1 h2 h3
    exact fetchLoop_first_ok resp _ none k u card h1 h2 h3
  · intro u h1 h2
    exact fetchLoop_allFail resp _ none u h1 h2

/-- A concrete card payload served by the mirror that answers. -/
def c4_card : WbCard := ⟨some "T".data, none, some 499000, none⟩

/-- A network where hosts 1-5 fail with a connection error and host 6
answers HTTP 200. -/
def c4_resp : List Char → HttpRes := fun u =>
  if u = wbUrlN 6 546168907 then .response 200 c4_card else .netErr "conn reset".data

/-- A network where every host times out. -/
def c4_respBad : List Char → HttpRes := fun _ => .netErr "timeout".data

/-- Witness for C4: hosts 1-5 fail and host 6 answers 200, so the fetch
succeeds with host 6's payload; under total failure the fetch raises with
the last host's error; and basket-01 is attempted first. -/
theorem c4_mirror_hosts_witness :
    fetch_wb_card c4_resp 546168907 = .ok c4_card
    ∧ fetch_wb_card c4_respBad 546168907 = .error (some ("timeout".data))
    ∧ (wb_card_urls 546168907)[0]? = some (wbUrlN 1 546168907) := by
  refine ⟨?_, ?_, ?_⟩
  · exact (c4_mirror_hosts_in_order_first_200_wins c4_resp 546168907).2.1 5
      (wbUrlN 6 546168907) c4_card (by decide) (by decide) (by decide)
  · exact (c4_mirror_hosts_in_order_first_200_wins c4_respBad 546168907).2.2
      (wbUrlN 20 546168907) (by decide) (by decide)
  · exact (c4_mirror_hosts_in_order_first_200_wins c4_resp 546168907).1 0 (by decide)

/-! ## Price extraction (C8) -/

/-- Claim C8 (confirmed): for every WB card payload carrying an integer
minor-unit price field, the extracted whole price is the floor integer
division of that field by 100; salePriceU is preferred over priceU whenever
it is an integer, and if neither field is an integer the price is None. -/
theorem c8_minor_units_floor_division (c : WbCard) :
    (∀ s, c.salePriceU = some s → (wb_extract_title_price c).2 = some (Int.fdiv s 100))
    ∧ (c.salePriceU = none →
        ∀ q, c.priceU = some q → (wb_extract_title_price c).2 = some (Int.fdiv q 100))
    ∧ (c.salePriceU = none → c.priceU = none → (wb_extract_title_price c).2 = none) := by
  refine ⟨?_, ?_, ?_⟩
  · intro s hs
    simp [wb_extract_title_price, hs]
  · intro h q hq
    simp [wb_extract_title_price, h, hq]
  · intro h1 h2
    simp [wb_extract_title_price, h1, h2]

/-- Witness for C8: 499000 kopecks yield 4990 whole units, 499099 kopecks
also yield 4990 (floor, not round), salePriceU wins over a present priceU,
and the priceU fallback also floors. -/
theorem c8_minor_units_witness :
    (wb_extract_title_price ⟨none, none, some 499000, none⟩).2 = some 4990
    ∧ (wb_extract_title_price ⟨none, none, some 499099, some 777⟩).2 = some 4990
    ∧ (wb_extract_title_price ⟨none, none, none, some 499099⟩).2 = some 4990 := by
  refine ⟨?_, ?_, ?_⟩
  · exact ((c8_minor_units_floor_division ⟨none, none, some 499000, none⟩).1 499000 rfl).trans
      (by decide)
  · exact ((c8_minor_units_floor_division ⟨none, none, some 499099, some 777⟩).1 499099 rfl).trans
      (by decide)
  · exact ((c8_minor_units_floor_division ⟨none, none, none, some 499099⟩).2.1 rfl 499099
      rfl).trans (by decide)

/-! ## The watch cycle: threshold, isolation, send failure (C1, C3, C5) -/

/-- When the fetch of a subscription succeeds with a concrete price, the
per-row body reduces to the threshold check followed by the send and the
deactivation.  A successful fetch with a price forces marketplace wb, since
the OZON fetch always returns the triple of Nones. -/
lemma processSub_ok_some (resp : List Char → HttpRes) (sendOk : Subscription → Bool)
    (s : Subscription) (p : Int) (t u : Option (List Char))
    (hf : fetch_current_price resp s.marketplace s.product_id = .ok (some p, t, u)) :
    processSub resp sendOk s =
      (if p ≤ s.target_price then
        (if sendOk s then
          ({ s with last_price := some p, active := false }, some ⟨s.chat_id, s.id, p⟩)
         else ({ s with last_price := some p }, none))
       else ({ s with last_price := some p }, none)) := by
  have hmp : s.marketplace = Mp.wb := by
    cases hm : s.marketplace
    · rfl
    · rw [hm] at hf
      simp [fetch_current_price] at hf
  unfold processSub
  rw [hf, hmp]

/-- A row the cycle leaves with active = 1 had active = 1 before: no branch
of the per-row body ever sets active back to 1. -/
lemma processSub_active_mono (resp : List Char → HttpRes) (sendOk : Subscription → Bool)
    (s : Subscription) :
    (processSub resp sendOk s).1.active = true → s.active = true := by
  intro h
  unfold processSub at h
  split at h
  · exact h
  · split at h
    · exact h
    · split at h
      · exact h
      · split at h
        · split at h
          · simp at h
          · exact h
        · exact h

/-- Claim C1 (confirmed): for an active subscription whose fetch yields a
price p (when delivery succeeds), a notification is delivered iff
p <= target_price, and then the row is deactivated; when p > target_price
nothing is sent and the row stays active; a row with active = 0 passes
through every cycle untouched and un-notified (db_get_active loads only
active rows), and no branch ever reactivates a row, so a deactivated
subscription is never processed or re-notified by any later cycle. -/
theorem c1_notify_iff_at_or_below_target_then_deactivate (resp : List Char → HttpRes)
    (sendOk : Subscription → Bool) (s : Subscription) (p : Int) (t u : Option (List Char))
    (hact : s.active = true) (hsend : sendOk s = true)
    (hf : fetch_current_price resp s.marketplace s.product_id = .ok (some p, t, u)) :
    (((processSub resp sendOk s).2 ≠ none) ↔ p ≤ s.target_price)
    ∧ (p ≤ s.target_price →
        (processSub resp sendOk s).1.active = false
        ∧ (processSub resp sendOk s).2 = some ⟨s.chat_id, s.id, p⟩)
    ∧ (s.target_price < p →
        (processSub resp sendOk s).2 = none ∧ (processSub resp sendOk s).1.active = true)
    ∧ (∀ s2 : Subscription, s2.active = false → ∀ subs,
        check_prices resp sendOk (s2 :: subs)
          = (s2 :: (check_prices resp sendOk subs).1, (check_prices resp sendOk subs).2))
    ∧ (∀ s3 : Subscription, (processSub resp sendOk s3).1.active = true → s3.active = true) := by
  have hps := processSub_ok_some resp sendOk s p t u hf
  refine ⟨?_, ?_, ?_, ?_, ?_⟩
  · rw [hps]
    by_cases hle : p ≤ s.target_price <;> simp [hle, hsend]
  · intro hle
    rw [hps]
    simp [hle, hsend]
  · intro hgt
    have hnle : ¬ p ≤ s.target_price := not_le.mpr hgt
    rw [hps]
    simp [hnle, hact]
  · intro s2 h2 subs
    simp [check_prices, h2]
  · exact fun s3 => processSub_active_mono resp sendOk s3

/-- The subscription of the C1 witness: an active WB watch at target 4990. -/
def c1_sub : Subscription :=
  ⟨1, 7, 7, .wb, "546168907".data, "T".data, wbDetailUrl 546168907, 4990, none, true⟩

/-- A network whose every host serves the C4 card (price 4990). -/
def c1_resp : List Char → HttpRes := fun _ => .response 200 ⟨some "T".data, none, some 499000, none⟩

/-- A delivery that always succeeds. -/
def c1_send : Subscription → Bool := fun _ => true

/-- Witness for C1: at fetched price 4990 and target 4990 the notification
is delivered and the row is deactivated. -/
theorem c1_notify_witness :
    (processSub c1_resp c1_send c1_sub).1.active = false
    ∧ (processSub c1_resp c1_send c1_sub).2 = some ⟨7, 1, 4990⟩ := by
  have h := c1_notify_iff_at_or_below_target_then_deactivate c1_resp c1_send c1_sub 4990
    (some ("T".data)) (some (wbDetailUrl 546168907)) rfl rfl (by decide)
  exact h.2.1 (by decide)

/-- Claim C5 (confirmed): a subscription whose fetch raises is skipped for
the cycle with its row fully unchanged (last_price kept, still active, no
notification), and the rest of the cycle processes every other row exactly
as it would without the failure. -/
theorem c5_fetch_failure_skips_row_only (resp : List Char → HttpRes)
    (sendOk : Subscription → Bool) (a : Subscription) (e : Option (List Char))
    (hfail : fetch_current_price resp a.marketplace a.product_id = .error e) :
    processSub resp sendOk a = (a, none)
    ∧ ∀ l1 l2, check_prices resp sendOk (l1 ++ a :: l2)
        = ((check_prices resp sendOk l1).1 ++ a :: (check_prices resp sendOk l2).1,
           (check_prices resp sendOk l1).2 ++ (check_prices resp sendOk l2).2) := by
  have h1 : processSub resp sendOk a = (a, none) := by
    unfold processSub
    rw [hfail]
  refine ⟨h1, ?_⟩
  intro l1 l2
  simp [check_prices, h1, List.filterMap_append, ite_self]

/-- The failing subscription of the C5 witness. -/
def c5_sub : Subscription :=
  ⟨2, 8, 8, .wb, "546168907".data, "U".data, wbDetailUrl 546168907, 1000, some 1500, true⟩

/-- A healthy neighbour row processed in the same cycle. -/
def c5_other : Subscription :=
  ⟨3, 9, 9, .wb, "546168907".data, "V".data, wbDetailUrl 546168907, 5000, none, true⟩

/-- A network where every host errors out. -/
def c5_resp : List Char → HttpRes := fun _ => .netErr "boom".data

/-- Witness for C5: with every host failing, the row is returned untouched
and a cycle over a neighbourhood of it equals the two split cycles. -/
theorem c5_fetch_failure_witness :
    processSub c5_resp c1_send c5_sub = (c5_sub, none)
    ∧ check_prices c5_resp c1_send ([c5_other] ++ c5_sub :: [c5_other])
        = ((check_prices c5_resp c1_send [c5_other]).1 ++ c5_sub ::
            (check_prices c5_resp c1_send [c5_other]).1,
           (check_prices c5_resp c1_send [c5_other]).2 ++
            (check_prices c5_resp c1_send [c5_other]).2) := by
  have h := c5_fetch_failure_skips_row_only c5_resp c1_send c5_sub (some ("boom".data)) (by decide)
  exact ⟨h.1, h.2 [c5_other] [c5_other]⟩

/-- The subscription of the C3 counterexample: active, target 100. -/
def c3_sub : Subscription :=
  ⟨4, 5, 5, .wb, "100123456".data, "W".data, wbDetailUrl 100123456, 100, none, true⟩

/-- A network serving a card whose price is 50, at or below the target. -/
def c3_resp : List Char → HttpRes := fun _ => .response 200 ⟨some "W".data, none, some 5000, none⟩

/-- A delivery that always raises. -/
def c3_sendFail : Subscription → Bool := fun _ => false

/-- Counterexample to C3 as stated: the fetched price 50 is at or below the
target 100, the send raises, and the subscription comes out of the cycle
still active with no deactivation attempted (send and deactivate sit in the
same try block; the exception skips db_deactivate). -/
theorem c3_send_failure_counterexample :
    fetch_current_price c3_resp c3_sub.marketplace c3_sub.product_id
      = .ok (some 50, some ("W".data), some (wbDetailUrl 100123456))
    ∧ (50 : Int) ≤ c3_sub.target_price
    ∧ c3_sendFail c3_sub = false
    ∧ processSub c3_resp c3_sendFail c3_sub = ({ c3_sub with last_price := some 50 }, none)
    ∧ (processSub c3_resp c3_sendFail c3_sub).1.active = true := by
  refine ⟨by decide, by decide, rfl, by decide, by decide⟩

/-- Claim C3 (corrected): when the threshold check succeeds but the send
raises, the exception is caught by the per-row handler and deactivation is
NOT attempted: the row keeps its active flag (its last_price was already
updated before the send), and no notification is delivered. -/
theorem c3_send_failure_prevents_deactivation (resp : List Char → HttpRes)
    (sendOk : Subscription → Bool) (s : Subscription) (p : Int) (t u : Option (List Char))
    (hf : fetch_current_price resp s.marketplace s.product_id = .ok (some p, t, u))
    (hle : p ≤ s.target_price) (hsend : sendOk s = false) :
    processSub resp sendOk s = ({ s with last_price := some p }, none)
    ∧ (processSub resp sendOk s).1.active = s.active := by
  have hps := processSub_ok_some resp sendOk s p t u hf
  rw [hps]
  simp [hle, hsend]

/-- Witness for C3's amended statement at the counterexample input. -/
theorem c3_send_failure_witness :
    processSub c3_resp c3_sendFail c3_sub = ({ c3_sub with last_price := some 50 }, none)
    ∧ (processSub c3_resp c3_sendFail c3_sub).1.active = c3_sub.active := by
  exact c3_send_failure_prevents_deactivation c3_resp c3_sendFail c3_sub 50
    (some ("W".data)) (some (wbDetailUrl 100123456)) (by decide) (by decide) rfl

/-! ## Character-class and scanning lemmas -/

/-- dropWhile is the identity when no element satisfies the predicate. -/
lemma dropWhileFalse (p : Char → Bool) :
    ∀ l : List Char, (∀ x ∈ l, p x = false) → l.dropWhile p = l := by
  intro l h
  cases l with
  | nil => rfl
  | cons c rest => simp [List.dropWhile, h c (List.mem_cons_self c rest)]

/-- takeWhile is the identity when every element satisfies the predicate. -/
lemma takeWhileTrue (p : Char → Bool) :
    ∀ l : List Char, (∀ x ∈ l, p x = true) → l.takeWhile p = l := by
  intro l
  induction l with
  | nil => intro _; rfl
  | cons c rest ih =>
    intro h
    simp [List.takeWhile, h c (List.mem_cons_self c rest),
      ih (fun x hx => h x (List.mem_cons_of_mem c hx))]

/-- dropWhile empties the list when every element satisfies the predicate. -/
lemma dropWhileTrue (p : Char → Bool) :
    ∀ l : List Char, (∀ x ∈ l, p x = true) → l.dropWhile p = [] := by
  intro l
  induction l with
  | nil => intro _; rfl
  | cons c rest ih =>
    intro h
    simp [List.dropWhile, h c (List.mem_cons_self c rest),
      ih (fun x hx => h x (List.mem_cons_of_mem c hx))]

/-- map is the identity when the function fixes every element. -/
lemma mapSelf (f : Char → Char) :
    ∀ l : List Char, (∀ x ∈ l, f x = x) → l.map f = l := by
  intro l
  induction l with
  | nil => intro _; rfl
  | cons c rest ih =>
    intro h
    simp [h c (List.mem_cons_self c rest), ih (fun x hx => h x (List.mem_cons_of_mem c hx))]

/-- An ASCII digit is one of the ten digit characters. -/
lemma isDig_mem {c : Char} (h : isDig c = true) : c ∈ digitChars := by
  simpa [isDig] using h

/-- Digits are not whitespace. -/
lemma isDig_not_ws {c : Char} (h : isDig c = true) : isWs c = false := by
  have h2 := isDig_mem h
  fin_cases h2 <;> decide

/-- Digits are word characters. -/
lemma isDig_word {c : Char} (h : isDig c = true) : wordChar c = true := by
  simp [wordChar, h]

/-- Lowercasing fixes digits. -/
lemma isDig_toLower {c : Char} (h : isDig c = true) : Char.toLower c = c := by
  have h2 := isDig_mem h
  fin_cases h2 <;> decide

/-- A digit is not the dash character. -/
lemma isDig_ne_dash {c : Char} (h : isDig c = true) : ¬ (c = '-') := by
  have h2 := isDig_mem h
  fin_cases h2 <;> decide

/-- The WB catalog literal never starts at a digit. -/
lemma isDig_not_litWB {c : Char} (h : isDig c = true) (r : List Char) :
    litWB.isPrefixOf (c :: r) = false := by
  have h2 := isDig_mem h
  fin_cases h2 <;> rfl

/-- The literal "ozon" never starts at a digit. -/
lemma isDig_not_litOzon {c : Char} (h : isDig c = true) (r : List Char) :
    litOzon.isPrefixOf (c :: r) = false := by
  have h2 := isDig_mem h
  fin_cases h2 <;> rfl

/-- Stripping fixes an all-digit string. -/
lemma stripStr_of_digits (l : List Char) (h : ∀ x ∈ l, isDig x = true) : stripStr l = l := by
  unfold stripStr
  rw [dropWhileFalse isWs l (fun x hx => isDig_not_ws (h x hx)),
      dropWhileFalse isWs l.reverse (fun x hx => isDig_not_ws (h x (List.mem_reverse.mp hx))),
      List.reverse_reverse]

/-- Lowercasing fixes an all-digit string. -/
lemma lowerStr_of_digits (l : List Char) (h : ∀ x ∈ l, isDig x = true) : lowerStr l = l :=
  mapSelf Char.toLower l (fun x hx => isDig_toLower (h x hx))

/-- The WB catalog-link pattern matches nowhere in an all-digit string. -/
lemma findWbCatalog_of_digits :
    ∀ l : List Char, (∀ x ∈ l, isDig x = true) → findWbCatalog l = none := by
  intro l
  induction l with
  | nil => intro _; rfl
  | cons c rest ih =>
    intro h
    have hc := h c (List.mem_cons_self c rest)
    simp only [findWbCatalog, isDig_not_litWB hc rest, Bool.false_and, Bool.false_eq_true,
      if_false]
    exact ih (fun x hx => h x (List.mem_cons_of_mem c hx))

/-- The bounded digit-run pattern matches nowhere in an all-digit string
when the position before the scan is already a word character. -/
lemma findRun_word_digits :
    ∀ (l : List Char) (prev : Char), wordChar prev = true →
      (∀ x ∈ l, isDig x = true) → findRun (some prev) l = none := by
  intro l
  induction l with
  | nil => intro prev _ _; rfl
  | cons c rest ih =>
    intro prev hprev h
    have hc := h c (List.mem_cons_self c rest)
    simp only [findRun, boundaryBefore, hprev, Bool.not_true, Bool.and_false, Bool.false_and,
      Bool.false_eq_true, if_false]
    exact ih c (isDig_word hc) (fun x hx => h x (List.mem_cons_of_mem c hx))

/-- On a nonempty all-digit string, the bounded digit-run pattern matches
the whole string exactly when its length is in range. -/
lemma findRun_all_digits (c : Char) (rest : List Char)
    (h : ∀ x ∈ c :: rest, isDig x = true) :
    findRun none (c :: rest)
      = if 6 ≤ (c :: rest).length ∧ (c :: rest).length ≤ 12 then some (c :: rest) else none := by
  have hc := h c (List.mem_cons_self c rest)
  have htake : (c :: rest).takeWhile isDig = c :: rest := takeWhileTrue _ _ h
  have hdrop : (c :: rest).dropWhile isDig = [] := dropWhileTrue _ _ h
  have hrest : ∀ x ∈ rest, isDig x = true := fun x hx => h x (List.mem_cons_of_mem c hx)
  simp [findRun, htake, hdrop, hc, boundaryBefore, boundaryAfterL]
  split
  · rfl
  · exact findRun_word_digits rest c (isDig_word hc) hrest

/-- extract_wb_nm on a nonempty all-digit string: the int() value of the
whole string when its length is 6 to 12, else nothing. -/
lemma extract_wb_nm_of_digits (l : List Char) (h0 : l ≠ [])
    (h : ∀ x ∈ l, isDig x = true) :
    extract_wb_nm l
      = if 6 ≤ l.length ∧ l.length ≤ 12 then some (digitsToNat l) else none := by
  cases l with
  | nil => exact absurd rfl h0
  | cons c rest =>
    unfold extract_wb_nm
    rw [findWbCatalog_of_digits (c :: rest) h]
    rw [findRun_all_digits c rest h]
    by_cases hlen : 6 ≤ (c :: rest).length ∧ (c :: rest).length ≤ 12 <;>
      simp [hlen, List.isEmpty]

/-- The ozon command pattern matches nowhere in an all-digit string. -/
lemma findOzonCmd_of_digits :
    ∀ (l : List Char) (prev : Option Char), (∀ x ∈ l, isDig x = true) →
      findOzonCmd prev l = none := by
  intro l
  induction l with
  | nil => intro prev _; rfl
  | cons c rest ih =>
    intro prev h
    have hc := h c (List.mem_cons_self c rest)
    simp only [findOzonCmd, isDig_not_litOzon hc rest, Bool.and_false, Bool.false_eq_true,
      if_false]
    exact ih (some c) (fun x hx => h x (List.mem_cons_of_mem c hx))

/-- The ozon link pattern matches nowhere in an all-digit string. -/
lemma findDashId_of_digits :
    ∀ l : List Char, (∀ x ∈ l, isDig x = true) → findDashId l = none := by
  intro l
  induction l with
  | nil => intro _; rfl
  | cons c rest ih =>
    intro h
    have hc := h c (List.mem_cons_self c rest)
    simp only [findDashId, if_neg (isDig_ne_dash hc)]
    exact ih (fun x hx => h x (List.mem_cons_of_mem c hx))

/-- extract_ozon_id never accepts a bare all-digit string. -/
lemma extract_ozon_id_of_digits (l : List Char) (h : ∀ x ∈ l, isDig x = true) :
    extract_ozon_id l = none := by
  cases l with
  | nil => rfl
  | cons c rest =>
    unfold extract_ozon_id ozonScan
    rw [stripStr_of_digits (c :: rest) h, lowerStr_of_digits (c :: rest) h,
      findOzonCmd_of_digits (c :: rest) none h, findDashId_of_digits (c :: rest) h]
    rfl

/-! ## Bare digit strings (C7) -/

/-- Counterexample to C7 as stated: the bare 6-digit string "000123" is
parsed, but as WB product 123 — int() drops the leading zeros, so the
stored product id is "123", not the original string; and the bare 6-digit
string "000000" is a parse failure, because int("000000") is 0, which is
falsy, so the WB branch is skipped and no branch accepts it. -/
theorem c7_leading_zeros_counterexample :
    parse_ref ("000123".data) = some (.wbRef 123)
    ∧ ("000123".data).length = 6
    ∧ natRepr 123 = "123".data
    ∧ parse_ref ("000000".data) = none
    ∧ ("000000".data).length = 6 := by
  refine ⟨by decide, by decide, by decide, by decide, by decide⟩

/-- Claim C7 (corrected): a bare digit string of length 6 to 12 with a
nonzero int() value parses as WB with the value as product id (rendered
back in decimal, leading zeros dropped); a bare all-zero string of length
6 to 12 is a parse failure; and bare digit strings shorter than 6 or
longer than 12 are parse failures. -/
theorem c7_bare_digit_string_rules (text : List Char) (h0 : text ≠ [])
    (hd : ∀ c ∈ text, isDig c = true) :
    (6 ≤ text.length → text.length ≤ 12 → digitsToNat text ≠ 0 →
      parse_ref text = some (.wbRef (digitsToNat text)))
    ∧ (6 ≤ text.length → text.length ≤ 12 → digitsToNat text = 0 → parse_ref text = none)
    ∧ (text.length < 6 ∨ 12 < text.length → parse_ref text = none)
    ∧ (∀ (resp : List Char → HttpRes) (card : WbCard),
        6 ≤ text.length → text.length ≤ 12 → digitsToNat text ≠ 0 →
        fetch_wb_card resp (digitsToNat text) = .ok card →
        (on_message resp none text).2.1
          = some ⟨.wb, natRepr (digitsToNat text), (wb_extract_title_price card).1,
                  wbDetailUrl (digitsToNat text), (wb_extract_title_price card).2⟩) := by
  have hwb := extract_wb_nm_of_digits text h0 hd
  have hoz : ozon_parse text = none := by
    unfold ozon_parse
    rw [extract_ozon_id_of_digits text hd]
  have hemp : text.isEmpty = false := by
    cases text with
    | nil => exact absurd rfl h0
    | cons a l => rfl
  have hc1 : 6 ≤ text.length → text.length ≤ 12 → digitsToNat text ≠ 0 →
      parse_ref text = some (.wbRef (digitsToNat text)) := by
    intro h6 h12 hnz
    unfold parse_ref
    rw [hwb, if_pos ⟨h6, h12⟩]
    simp [hnz]
  refine ⟨hc1, ?_, ?_, ?_⟩
  · intro h6 h12 hz
    unfold parse_ref
    rw [hwb, if_pos ⟨h6, h12⟩]
    simp [hz, hoz]
  · intro hout
    unfold parse_ref
    rw [hwb, if_neg (by omega)]
    exact hoz
  · intro resp card h6 h12 hnz hcard
    unfold on_message
    rw [stripStr_of_digits text hd]
    unfold handle_text
    rw [hemp]
    simp only [Bool.false_eq_true, if_false]
    rw [hc1 h6 h12 hnz]
    simp only [hcard]

/-- Witness for C7's amended statement on "546168907": parsed as WB with
the same digits (no leading zeros to drop). -/
theorem c7_bare_digit_witness :
    parse_ref ("546168907".data) = some (.wbRef 546168907)
    ∧ parse_ref ("12345".data) = none
    ∧ parse_ref ("1234567890123".data) = none := by
  refine ⟨?_, ?_, ?_⟩
  · exact ((c7_bare_digit_string_rules ("546168907".data) (by decide) (by decide)).1
      (by decide) (by decide) (by decide)).trans (by decide)
  · exact (c7_bare_digit_string_rules ("12345".data) (by decide) (by decide)).2.2.1
      (by decide)
  · exact (c7_bare_digit_string_rules ("1234567890123".data) (by decide) (by decide)).2.2.1
      (by decide)

/-! ## The explicit ozon command (C2) -/

/-- A network serving a fixed card, to watch where the OZON command ends
up. -/
def c2_resp : List Char → HttpRes := fun _ => .response 200 ⟨some "T".data, none, some 499000, none⟩

/-- Claim C2 (code bug): "ozon 123456789" is the explicit OZON command the
bot's own /start text advertises, and extract_ozon_id does extract the id;
but on_message consults extract_wb_nm first, whose digit-run regex matches
the digits inside the message, so the message is resolved as WB product
123456789 — the OZON branch is never reached. -/
theorem c2_ozon_command_resolved_as_wb :
    extract_ozon_id ("ozon 123456789".data) = some ("123456789".data)
    ∧ extract_wb_nm ("ozon 123456789".data) = some 123456789
    ∧ parse_ref ("ozon 123456789".data) = some (.wbRef 123456789)
    ∧ (on_message c2_resp none ("ozon 123456789".data)).2.1
        = some ⟨.wb, "123456789".data, "T".data, wbDetailUrl 123456789, some 4990⟩ := by
  refine ⟨by decide, by decide, by decide, by decide⟩

/-! ## OZON marker without an extractable id (C6) -/

/-- Everything the greedy digit scan captures is a digit. -/
lemma takeDigits_all (l : List Char) : (takeDigits l).all isDig = true := by
  rw [List.all_eq_true]
  intro x hx
  exact List.mem_takeWhile_imp hx

/-- The ozon command pattern only ever captures digit strings. -/
lemma ozonCmdHere_digits (l d : List Char) (h : ozonCmdHere l = some d) :
    d.all isDig = true := by
  unfold ozonCmdHere at h
  split at h
  · cases h
    exact takeDigits_all _
  · cases h

/-- The ozon command search only ever captures digit strings. -/
lemma findOzonCmd_digits :
    ∀ (l : List Char) (prev : Option Char) (d : List Char),
      findOzonCmd prev l = some d → d.all isDig = true := by
  intro l
  induction l with
  | nil => intro prev d h; cases h
  | cons c rest ih =>
    intro prev d h
    unfold findOzonCmd at h
    split at h
    · split at h
      · cases h
        exact ozonCmdHere_digits _ _ (by assumption)
      · exact ih (some c) d h
    · exact ih (some c) d h

/-- The ozon link search only ever captures digit strings. -/
lemma findDashId_digits :
    ∀ (l d : List Char), findDashId l = some d → d.all isDig = true := by
  intro l
  induction l with
  | nil => intro d h; cases h
  | cons c rest ih =>
    intro d h
    unfold findDashId at h
    split at h
    · split at h
      · cases h
        exact takeDigits_all _
      · exact ih d h
    · exact ih d h

/-- extract_ozon_id only ever returns digit strings. -/
lemma extract_ozon_id_digits (t d : List Char) (h : extract_ozon_id t = some d) :
    d.all isDig = true := by
  unfold extract_ozon_id ozonScan at h
  split at h
  · cases h
  · split at h
    · cases h
      exact findOzonCmd_digits _ none _ (by assumption)
    · split at h
      · split at h
        · cases h
          exact findDashId_digits _ _ (by assumption)
        · cases h
      · cases h

/-- A no-id network for the C6 evaluation. -/
def c6_resp : List Char → HttpRes := fun _ => .netErr "x".data

/-- Counterexample to C6 as stated: the OZON product link with no trailing
digit id contains the OZON domain marker, yet extract_ozon_id returns None
and on_message falls through to the parse-failure reply — no degraded
reference with product_id "unknown" exists anywhere in the code. -/
theorem c6_no_unknown_counterexample :
    containsOzon (lowerStr ("https://www.ozon.ru/product/tovar/".data)) = true
    ∧ extract_ozon_id ("https://www.ozon.ru/product/tovar/".data) = none
    ∧ on_message c6_resp none ("https://www.ozon.ru/product/tovar/".data)
        = (.fallback, none, none) := by
  refine ⟨by decide, by decide, by decide⟩

/-- Claim C6 (corrected): a text with an OZON domain marker but no
extractable id is a parse failure — when neither extractor matches, the
handler replies with the fallback and stores nothing; and extract_ozon_id
can only ever produce digit strings, never the string "unknown". -/
theorem c6_ozon_marker_without_id_fails (resp : List Char → HttpRes) (text : List Char)
    (h1 : extract_wb_nm (stripStr text) = none)
    (h2 : extract_ozon_id (stripStr text) = none)
    (h3 : (stripStr text).isEmpty = false) :
    on_message resp none text = (.fallback, none, none)
    ∧ ∀ (t d : List Char), extract_ozon_id t = some d →
        d.all isDig = true ∧ d ≠ "unknown".data := by
  constructor
  · unfold on_message handle_text
    rw [h3]
    simp only [Bool.false_eq_true, if_false]
    unfold parse_ref ozon_parse
    rw [h1, h2]
  · intro t d h
    have hdig := extract_ozon_id_digits t d h
    refine ⟨hdig, ?_⟩
    intro he
    rw [he] at hdig
    exact absurd hdig (by decide)

/-- Witness for C6's amended statement at the concrete no-id OZON link,
plus the digit-only shape of a successful extraction. -/
theorem c6_ozon_marker_witness :
    on_message c6_resp none ("https://www.ozon.ru/product/tovar/".data)
      = (.fallback, none, none)
    ∧ ("123456789".data).all isDig = true ∧ "123456789".data ≠ "unknown".data := by
  have h := c6_ozon_marker_without_id_fails c6_resp
    ("https://www.ozon.ru/product/tovar/".data) (by decide) (by decide) (by decide)
  exact ⟨h.1, h.2 ("ozon 123456789".data) ("123456789".data) (by decide)⟩

/-! ## Second reference while awaiting a price (C9) -/

/-- The pending OZON entry of the C9 scenario: the user is awaiting_price. -/
def c9_entry : PendingEntry :=
  ⟨.ozon, "123456789".data, ozonTitle ("123456789".data), "ozon 123456789".data, none⟩

/-- A healthy network, so the WB reference would resolve if it were ever
fetched. -/
def c9_resp : List Char → HttpRes := fun _ => .response 200 ⟨some "T".data, none, some 100, none⟩

/-- Counterexample to C9 as stated: with a pending entry present, the user
submits a second, perfectly valid product reference (a WB catalog URL);
the handler only runs is_price_message on it, replies with the
write-a-number reprompt, and leaves the pending entry exactly as it was —
nothing is overwritten. -/
theorem c9_second_reference_counterexample :
    parse_ref (stripStr ("https://www.wildberries.ru/catalog/546168907/detail.aspx".data))
      = some (.wbRef 546168907)
    ∧ on_message c9_resp (some c9_entry)
        ("https://www.wildberries.ru/catalog/546168907/detail.aspx".data)
      = (.askNumber, some c9_entry, none) := by
  refine ⟨by decide, by decide⟩

/-- Claim C9 (corrected): while a user is awaiting_price, every message is
interpreted as a price only.  A message that does not parse as a price
(any URL or other reference included) gets the reprompt and leaves the
pending entry unchanged; a message that does parse as a price consumes the
OLD pending entry into a subscription.  A second reference never
overwrites the pending entry. -/
theorem c9_pending_accepts_price_only (resp : List Char → HttpRes) (e : PendingEntry)
    (text : List Char) (hne : (stripStr text).isEmpty = false) :
    (is_price_message (stripStr text) = none →
      on_message resp (some e) text = (.askNumber, some e, none))
    ∧ (∀ p, is_price_message (stripStr text) = some p →
      on_message resp (some e) text
        = (.subscribed p, none,
           some ⟨e.marketplace, e.product_id, e.title, e.url, p, e.last_price⟩)) := by
  constructor
  · intro h
    unfold on_message handle_text
    rw [hne]
    simp only [Bool.false_eq_true, if_false]
    rw [h]
  · intro p h
    unfold on_message handle_text
    rw [hne]
    simp only [Bool.false_eq_true, if_false]
    rw [h]

/-- Witness for C9's amended statement: a non-price message reprompts and
keeps the entry; the price 4990 consumes the old entry into a
subscription. -/
theorem c9_pending_witness :
    on_message c9_resp (some c9_entry) ("not a number".data)
      = (.askNumber, some c9_entry, none)
    ∧ on_message c9_resp (some c9_entry) ("4990".data)
      = (.subscribed 4990, none,
         some ⟨.ozon, "123456789".data, ozonTitle ("123456789".data),
               "ozon 123456789".data, 4990, none⟩) := by
  constructor
  · exact (c9_pending_accepts_price_only c9_resp c9_entry ("not a number".data)
      (by decide)).1 (by decide)
  · exact (c9_pending_accepts_price_only c9_resp c9_entry ("4990".data)
      (by decide)).2 4990 (by decide)

/-! ## The target-price parser (C10) -/

/-- The acceptance core shared by the claim's formulation: a nonempty
all-digit string with a positive decimal value, yielding that value. -/
def priceRuleCore (u : List Char) : Option Nat :=
  if !u.isEmpty && u.all isDig && decide (0 < digitsToNat u) then some (digitsToNat u)
  else none

/-- The acceptance rule exactly as claim C10 words it (a second definition
following the claim's words, to compare with is_price_message): the text
with all space and '.' characters removed must be a nonempty all-digit
string with a strictly positive value. -/
def priceRuleClaimed (text : List Char) : Option Nat :=
  priceRuleCore (text.filter (fun c => !(c == ' ' || c == '.')))

/-- The amended rule: same acceptance test, but applied after stripping
leading and trailing whitespace from the text first, as the code does. -/
def priceRuleStripped (text : List Char) : Option Nat := priceRuleClaimed (stripStr text)

/-- The code's post-cleanup test agrees with the claim's core: isdigit()
plus a positive int() value, in either order of the checks. -/
lemma priceOfDigits_eq_core (t : List Char) : priceOfDigits t = priceRuleCore t := by
  unfold priceOfDigits priceRuleCore
  by_cases he : t.isEmpty <;> by_cases ha : t.all isDig <;>
    by_cases hz : digitsToNat t = 0 <;> simp [he, ha, hz] <;> omega

/-- Counterexample to C10 as stated: the message "4990\n" is accepted by
is_price_message (str.strip removes the newline), yet the text with only
spaces and dots removed still contains the newline and is not all-digit,
so the claimed acceptance condition rejects it — the stated iff fails. -/
theorem c10_trailing_newline_counterexample :
    is_price_message ("4990\n".data) = some 4990
    ∧ priceRuleClaimed ("4990\n".data) = none := by
  refine ⟨by decide, by decide⟩

/-- Claim C10 (corrected): the parser accepts a text iff the text, first
stripped of leading and trailing whitespace and then with all ' ' and '.'
characters removed, is a nonempty all-digit string of strictly positive
value, and it returns that value; every accepted price is at least 1 (so
every subscription created from it has target_price >= 1). -/
theorem c10_price_parser_rule (text : List Char) :
    is_price_message text = priceRuleStripped text
    ∧ ∀ p, is_price_message text = some p → 1 ≤ p := by
  have hfilters : ((stripStr text).filter (fun c => !(c == ' '))).filter (fun c => !(c == '.'))
      = (stripStr text).filter (fun c => !(c == ' ' || c == '.')) := by
    rw [List.filter_filter]
    exact List.filter_congr (fun x _ => by
      cases hx : (x == ' ') <;> cases hy : (x == '.') <;> simp [hx, hy])
  have hmain : is_price_message text = priceRuleStripped text := by
    by_cases h0 : text = []
    · subst h0
      decide
    · have h0e : text.isEmpty = false := by
        cases text with
        | nil => exact absurd rfl h0
        | cons a l => rfl
      unfold is_price_message priceRuleStripped priceRuleClaimed
      rw [h0e]
      simp only [Bool.false_eq_true, if_false]
      rw [hfilters, priceOfDigits_eq_core]
  refine ⟨hmain, ?_⟩
  intro p hp
  rw [hmain] at hp
  unfold priceRuleStripped priceRuleClaimed priceRuleCore at hp
  split at hp
  · rename_i hcond
    cases hp
    have h3 := (Bool.and_eq_true _ _).mp hcond
    have h4 := of_decide_eq_true h3.2
    omega
  · cases hp

/-- Witness for C10's amended statement: "49.90" is accepted as the
integer 4990 (the dot removed, not a decimal point), agreeing with the
stripped rule, and the accepted value is at least 1. -/
theorem c10_price_parser_witness :
    is_price_message ("49.90".data) = some 4990
    ∧ is_price_message ("49.90".data) = priceRuleStripped ("49.90".data)
    ∧ 1 ≤ 4990 := by
  refine ⟨by decide, (c10_price_parser_rule ("49.90".data)).1,
    (c10_price_parser_rule ("49.90".data)).2 4990 (by decide)⟩

end SaleOhota
